import Mathlib

/-!
Verification of the core game logic of the deal-or-no-deal repository.

The JavaScript source (src/js/Banker.js, src/js/Board.js, src/js/Animator.js)
is shallow-embedded below.  JS numbers are modelled as exact rationals; the
policy of the offer engine (comparisons, multipliers, rounding) is expressed
over these rationals.  Randomness (Math.random) is passed in explicitly:
the shuffle receives a choice function, the offer jitter receives a rational
draw in the interval from 0 (inclusive) to 1 (exclusive).  JS Math.round is
floor of x + 1/2, which is exact for rationals.
-/

/-- A JavaScript value fed to the offer engine: a number, NaN, or a
non-numeric value.  Banker.calculateOffer filters those with
`typeof value === 'number' && !isNaN(value) && value > 0`. -/
inductive JSNum where
  | num (q : ℚ)
  | nan
  | notNum
deriving DecidableEq, Repr

/-- The validity filter of Banker.calculateOffer (Banker.js line 26). -/
def isValidValue : JSNum → Bool
  | JSNum.num q => decide (0 < q)
  | _ => false

/-- The filtered list of valid values, as rationals (Banker.js lines 26-28). -/
def validOf (remaining : List JSNum) : List ℚ :=
  remaining.filterMap (fun v => match v with
    | JSNum.num q => if 0 < q then some q else none
    | _ => none)

/-- JS Math.round: round half toward positive infinity. -/
def jsRound (q : ℚ) : ℤ := ⌊q + 1/2⌋

/-- Banker.calculateExpectedValue (Banker.js lines 107-110): arithmetic mean,
0 for an empty list. -/
def calculateExpectedValue (values : List ℚ) : ℚ :=
  if values.length = 0 then 0 else values.sum / values.length

/-- Banker.getRoundMultiplier (Banker.js lines 118-136). -/
def getRoundMultiplier (round : ℕ) (remainingCases : ℕ) : ℚ :=
  if remainingCases ≤ 2 then 0.95
  else if remainingCases ≤ 3 then 0.90
  else if remainingCases ≤ 5 then 0.85
  else if remainingCases ≤ 10 then 0.80
  else if round = 1 then 0.25
  else if round = 2 then 0.35
  else if round = 3 then 0.45
  else if round = 4 then 0.55
  else if round = 5 then 0.65
  else if round = 6 then 0.75
  else 0.70

/-- Banker.getPsychologyMultiplier (Banker.js lines 144-181).  The banker
state field this.offers is passed explicitly (offers recorded so far,
integers because each recorded offer went through Math.round). -/
def getPsychologyMultiplier (offers : List ℤ) (remainingValues : List ℚ) : ℚ :=
  let m1 : ℚ := 1.0
  let m2 :=
    if 3 < offers.length then
      let recentOffers := offers.drop (offers.length - 3)
      let avgRecentOffer : ℚ := (recentOffers.map (fun o => (o : ℚ))).sum / recentOffers.length
      let currentExpected := calculateExpectedValue remainingValues
      if currentExpected * 0.6 < avgRecentOffer then m1 * 1.1 else m1
    else m1
  let highValues := remainingValues.filter (fun v => 100000 ≤ v)
  let lowValues := remainingValues.filter (fun v => v < 1000)
  let totalValues := remainingValues.length
  let m3 :=
    if (0.7 : ℚ) < (highValues.length : ℚ) / (totalValues : ℚ) then m2 * 1.05
    else if (0.5 : ℚ) < (highValues.length : ℚ) / (totalValues : ℚ) then m2 * 1.02
    else if (0.6 : ℚ) < (lowValues.length : ℚ) / (totalValues : ℚ) then m2 * 1.15
    else m2
  if totalValues ≤ 3 ∧ 1 ≤ highValues.length then m3 * 1.1 else m3

/-- Banker.getRiskMultiplier (Banker.js lines 188-204).  The source compares
the coefficient of variation sqrt(variance)/mean against 2, 1.5 and 1; with
a positive mean (the function is only applied to the positive filtered
values) this is equivalent to comparing variance against 4, 2.25 and 1
times the square of the mean, which keeps the definition rational-valued. -/
def getRiskMultiplier (remainingValues : List ℚ) : ℚ :=
  let mean := calculateExpectedValue remainingValues
  let variance :=
    (remainingValues.foldl (fun sum value => sum + (value - mean) ^ 2) 0) /
      (remainingValues.length : ℚ)
  if 4 * mean ^ 2 < variance then 0.85
  else if 2.25 * mean ^ 2 < variance then 0.9
  else if mean ^ 2 < variance then 0.95
  else 1.0

/-- Banker.roundOffer (Banker.js lines 211-219): round to a granularity
depending on the magnitude. -/
def roundOffer (offer : ℚ) : ℤ :=
  if offer < 100 then jsRound (offer / 5) * 5
  else if offer < 1000 then jsRound (offer / 10) * 10
  else if offer < 10000 then jsRound (offer / 100) * 100
  else if offer < 100000 then jsRound (offer / 500) * 500
  else if offer < 500000 then jsRound (offer / 1000) * 1000
  else jsRound (offer / 5000) * 5000

/-- Minimum of a list of rationals, 0 when empty; models
Math.min(...validValues), which is only reached with a nonempty list. -/
def listMinimum (l : List ℚ) : ℚ := (l.min?).getD 0

/-- The last recorded offer as a rational
(this.offers[this.offers.length - 1], Banker.js line 78). -/
def lastOfferOf (offers : List ℤ) : ℚ := ((offers.getLast?).getD 0 : ℤ)

/-- Stage of Banker.calculateOffer at line 50: expected value times the
three multipliers. -/
def rawOffer (offers : List ℤ) (validValues : List ℚ) (round : ℕ) : ℚ :=
  calculateExpectedValue validValues * getRoundMultiplier round validValues.length *
    getPsychologyMultiplier offers validValues * getRiskMultiplier validValues

/-- Stage at Banker.js lines 53-56: with three or fewer valid values, raise
to at least 85 percent of the expected value.  (The NaN re-check at lines
59-67 cannot fire in the rational model and is omitted.) -/
def flooredOffer (offers : List ℤ) (validValues : List ℚ) (round : ℕ) : ℚ :=
  if validValues.length ≤ 3 then
    max (rawOffer offers validValues round) (calculateExpectedValue validValues * 0.85)
  else rawOffer offers validValues round

/-- Stage at Banker.js lines 70-71: multiply by 0.95 + rand * 0.1 where rand
is the Math.random draw in the interval from 0 (inclusive) to 1 (exclusive). -/
def jitteredOffer (offers : List ℤ) (validValues : List ℚ) (round : ℕ) (rand : ℚ) : ℚ :=
  flooredOffer offers validValues round * (0.95 + rand * 0.1)

/-- Stage at Banker.js line 74: granular rounding. -/
def grainedOffer (offers : List ℤ) (validValues : List ℚ) (round : ℕ) (rand : ℚ) : ℤ :=
  roundOffer (jitteredOffer offers validValues round rand)

/-- Stage at Banker.js lines 77-81: when there is a prior offer and
round > 1, raise to at least 105 percent of the last offer. -/
def liftedOffer (offers : List ℤ) (validValues : List ℚ) (round : ℕ) (rand : ℚ) : ℚ :=
  if offers ≠ [] ∧ 1 < round then
    max ((grainedOffer offers validValues round rand : ℤ) : ℚ) (lastOfferOf offers * 1.05)
  else ((grainedOffer offers validValues round rand : ℤ) : ℚ)

/-- The cap of Banker.js lines 84-85.  Note the multiplier is chosen by the
length of the RAW input list (remainingValues.length), not of the filtered
valid list. -/
def maxOfferOf (validValues : List ℚ) (rawLen : ℕ) : ℚ :=
  calculateExpectedValue validValues * (if rawLen ≤ 3 then 0.95 else 0.85)

/-- Stage at Banker.js line 86: cap the offer. -/
def cappedOffer (offers : List ℤ) (validValues : List ℚ) (round : ℕ) (rand : ℚ)
    (rawLen : ℕ) : ℚ :=
  min (liftedOffer offers validValues round rand) (maxOfferOf validValues rawLen)

/-- Stage at Banker.js lines 89-92: if the capped offer degenerated to a
non-positive amount, fall back to max(1, 0.1 * smallest valid value). -/
def safeOffer (offers : List ℤ) (validValues : List ℚ) (round : ℕ) (rand : ℚ)
    (rawLen : ℕ) : ℚ :=
  if cappedOffer offers validValues round rand rawLen ≤ 0 then
    max 1 (listMinimum validValues * 0.1)
  else cappedOffer offers validValues round rand rawLen

/-- The mutable state of the Banker class (Banker.js lines 5-11) that
calculateOffer reads or writes. -/
structure Banker where
  offers : List ℤ
  currentOffer : ℤ
  offerNumber : ℕ
deriving DecidableEq, Repr

/-- Banker.calculateOffer (Banker.js lines 20-100): returns the updated
banker state and the offer.  Empty input returns 0 and an input with no
valid value returns 1000, in both cases without touching the state
(lines 21-23 and 30-33); otherwise the staged computation above runs and
the Math.round of the result is recorded and returned (lines 94-99). -/
def calculateOffer (bk : Banker) (remainingValues : List JSNum) (round : ℕ)
    (rand : ℚ) : Banker × ℤ :=
  if remainingValues.isEmpty then (bk, 0)
  else
    let validValues := validOf remainingValues
    if validValues.isEmpty then (bk, 1000)
    else
      let result := jsRound (safeOffer bk.offers validValues round rand remainingValues.length)
      ({ offers := bk.offers ++ [result], currentOffer := result,
         offerNumber := bk.offerNumber + 1 }, result)

/-- Unfolding of calculateOffer on the main path (nonempty input with at
least one valid value). -/
lemma calculateOffer_eq (bk : Banker) (remaining : List JSNum) (round : ℕ) (rand : ℚ)
    (h1 : remaining ≠ []) (h2 : validOf remaining ≠ []) :
    calculateOffer bk remaining round rand =
      ({ offers := bk.offers ++
            [jsRound (safeOffer bk.offers (validOf remaining) round rand remaining.length)],
         currentOffer := jsRound (safeOffer bk.offers (validOf remaining) round rand remaining.length),
         offerNumber := bk.offerNumber + 1 },
       jsRound (safeOffer bk.offers (validOf remaining) round rand remaining.length)) := by
  have e1 : remaining.isEmpty = false := by simp [h1]
  have e2 : (validOf remaining).isEmpty = false := by simp [h2]
  rw [calculateOffer]
  simp [e1, e2]

lemma foldl_min_le (t : List ℚ) (a : ℚ) : t.foldl min a ≤ a := by
  induction t generalizing a with
  | nil => exact le_refl a
  | cons b t ih => exact le_trans (ih (min a b)) (min_le_left a b)

lemma foldl_min_le_of_mem (t : List ℚ) (a v : ℚ) (hv : v ∈ t) : t.foldl min a ≤ v := by
  induction t generalizing a with
  | nil => cases hv
  | cons b t ih =>
    rcases List.mem_cons.1 hv with h | h
    · subst h
      exact le_trans (foldl_min_le t (min a v)) (min_le_right a v)
    · exact ih (min a b) h

lemma listMinimum_le_of_mem (l : List ℚ) (v : ℚ) (hv : v ∈ l) : listMinimum l ≤ v := by
  cases l with
  | nil => cases hv
  | cons a t =>
    show t.foldl min a ≤ v
    rcases List.mem_cons.1 hv with h | h
    · subst h; exact foldl_min_le t v
    · exact foldl_min_le_of_mem t a v h

lemma mul_length_le_sum (l : List ℚ) (m : ℚ) (h : ∀ v ∈ l, m ≤ v) :
    (l.length : ℚ) * m ≤ l.sum := by
  induction l with
  | nil => simp
  | cons a t ih =>
    have ha := h a (List.mem_cons_self a t)
    have ht := ih (fun v hv => h v (List.mem_cons_of_mem a hv))
    simp only [List.length_cons, List.sum_cons]
    push_cast
    linarith

lemma length_pos_rat (l : List ℚ) (h : l ≠ []) : 0 < (l.length : ℚ) := by
  have := List.length_pos.2 h
  exact_mod_cast this

lemma listMinimum_le_mean (l : List ℚ) (h : l ≠ []) :
    listMinimum l ≤ calculateExpectedValue l := by
  have hlen : 0 < (l.length : ℚ) := length_pos_rat l h
  rw [calculateExpectedValue, if_neg (by simp [h])]
  rw [le_div_iff₀ hlen]
  calc listMinimum l * (l.length : ℚ) = (l.length : ℚ) * listMinimum l := mul_comm _ _
    _ ≤ l.sum := mul_length_le_sum l _ (fun v hv => listMinimum_le_of_mem l v hv)

lemma mean_pos (l : List ℚ) (hne : l ≠ []) (hpos : ∀ v ∈ l, 0 < v) :
    0 < calculateExpectedValue l := by
  rw [calculateExpectedValue, if_neg (by simp [hne])]
  exact div_pos (List.sum_pos l hpos hne) (length_pos_rat l hne)

lemma validOf_map_num (l : List ℚ) (hpos : ∀ v ∈ l, 0 < v) :
    validOf (l.map JSNum.num) = l := by
  induction l with
  | nil => rfl
  | cons a t ih =>
    have ha := hpos a (List.mem_cons_self a t)
    have ht := ih (fun v hv => hpos v (List.mem_cons_of_mem a hv))
    simp only [validOf, List.map_cons, List.filterMap_cons] at ht ⊢
    rw [if_pos ha, ht]

/-- Claim C1: the claim that every offer with round > 1 and a nonempty offer
history is at least 1.05 times the previous offer is false on the code: the
expected-value cap at Banker.js line 86 is applied AFTER the monotonicity
raise of lines 77-81 and can pull the offer back below it.  Concretely, with
offer history [100000], round 2, remaining values [1, 5] and jitter draw 1/2
(jitter factor exactly 1), the returned offer is 3, far below
1.05 * 100000. -/
theorem C1_counterexample :
    (calculateOffer ⟨[100000], 100000, 1⟩ [JSNum.num 1, JSNum.num 5] 2 (1/2)).2 = 3 ∧
    ¬ ((1.05 : ℚ) * 100000 ≤ ((3 : ℤ) : ℚ)) := by
  constructor
  · have hv : validOf [JSNum.num 1, JSNum.num 5] = [1, 5] := by decide
    have hev : calculateExpectedValue [1, 5] = 3 := by norm_num [calculateExpectedValue]
    have hrm : getRoundMultiplier 2 2 = 19/20 := by norm_num [getRoundMultiplier]
    have hpm : getPsychologyMultiplier [100000] [1, 5] = 23/20 := by
      norm_num [getPsychologyMultiplier, calculateExpectedValue]
    have hrk : getRiskMultiplier [1, 5] = 1 := by
      norm_num [getRiskMultiplier, calculateExpectedValue]
    have hraw : rawOffer [100000] [1, 5] 2 = 1311/400 := by
      rw [rawOffer]; norm_num [hev, hrm, hpm, hrk]
    have hfl : flooredOffer [100000] [1, 5] 2 = 1311/400 := by
      rw [flooredOffer]; norm_num [hraw, hev]
    have hjt : jitteredOffer [100000] [1, 5] 2 (1/2) = 1311/400 := by
      rw [jitteredOffer, hfl]; norm_num
    have hgr : grainedOffer [100000] [1, 5] 2 (1/2) = 5 := by
      rw [grainedOffer, hjt, roundOffer]; norm_num [jsRound]
    have hlf : liftedOffer [100000] [1, 5] 2 (1/2) = 105000 := by
      rw [liftedOffer]; norm_num [hgr, lastOfferOf]
    have hmx : maxOfferOf [1, 5] 2 = 57/20 := by
      rw [maxOfferOf, hev]; norm_num
    have hcp : cappedOffer [100000] [1, 5] 2 (1/2) 2 = 57/20 := by
      rw [cappedOffer, hlf, hmx]; norm_num
    have hsf : safeOffer [100000] [1, 5] 2 (1/2) 2 = 57/20 := by
      rw [safeOffer, hcp]; norm_num
    rw [calculateOffer_eq _ _ _ _ (by decide) (by decide), hv]
    show jsRound (safeOffer [100000] [1, 5] 2 (1/2) 2) = 3
    rw [hsf, jsRound]; norm_num
  · norm_num

/-- Claim C1 amended: for round > 1 with a nonempty offer history (and a
nonempty input with at least one valid value), the returned offer is at
least the MINIMUM of 1.05 times the previous offer and the expected-value
cap (0.95 or 0.85 times the mean of the valid values, by raw input length),
up to the half-unit loss of the final Math.round.  The plain 1.05 * previous
lower bound of the claim holds only until the cap of Banker.js line 86. -/
theorem C1_offer_monotonicity_amended (bk : Banker) (remaining : List JSNum)
    (round : ℕ) (rand : ℚ) (h1 : remaining ≠ []) (h2 : validOf remaining ≠ [])
    (h3 : bk.offers ≠ []) (h4 : 1 < round) :
    min (lastOfferOf bk.offers * 1.05) (maxOfferOf (validOf remaining) remaining.length) - 1/2
      ≤ (((calculateOffer bk remaining round rand).2 : ℤ) : ℚ) := by
  rw [calculateOffer_eq bk remaining round rand h1 h2]
  have hlift : lastOfferOf bk.offers * 1.05
      ≤ liftedOffer bk.offers (validOf remaining) round rand := by
    rw [liftedOffer, if_pos ⟨h3, h4⟩]
    exact le_max_right _ _
  have hcap : min (lastOfferOf bk.offers * 1.05)
        (maxOfferOf (validOf remaining) remaining.length)
      ≤ cappedOffer bk.offers (validOf remaining) round rand remaining.length :=
    min_le_min hlift le_rfl
  have hsafe : min (lastOfferOf bk.offers * 1.05)
        (maxOfferOf (validOf remaining) remaining.length)
      ≤ safeOffer bk.offers (validOf remaining) round rand remaining.length := by
    rw [safeOffer]
    split_ifs with h
    · have h01 : min (lastOfferOf bk.offers * 1.05)
          (maxOfferOf (validOf remaining) remaining.length) ≤ 0 := le_trans hcap h
      exact le_trans h01 (le_trans zero_le_one (le_max_left _ _))
    · exact hcap
  have hfloor : safeOffer bk.offers (validOf remaining) round rand remaining.length - 1/2
      < ((jsRound (safeOffer bk.offers (validOf remaining) round rand remaining.length) : ℤ) : ℚ) := by
    rw [jsRound]
    have h := Int.sub_one_lt_floor
      (safeOffer bk.offers (validOf remaining) round rand remaining.length + 1/2)
    linarith
  show min _ _ - 1/2 ≤ ((jsRound _ : ℤ) : ℚ)
  linarith

/-- Witness for the amended claim C1 at a concrete input. -/
theorem C1_offer_monotonicity_amended_witness :
    min (lastOfferOf [100] * 1.05) (maxOfferOf (validOf [JSNum.num 1000000]) 1) - 1/2
      ≤ (((calculateOffer ⟨[100], 100, 1⟩ [JSNum.num 1000000] 2 (1/2)).2 : ℤ) : ℚ) :=
  C1_offer_monotonicity_amended ⟨[100], 100, 1⟩ [JSNum.num 1000000] 2 (1/2)
    (by decide) (by decide) (by decide) (by norm_num)

/-- Claim C2: the claimed bounds on the FINAL returned offer are false: the
final Math.round (Banker.js line 94) and the degenerate fallback (lines
89-92) can push the result above the cap.  With the single valid remaining
value 1 (so at most 3 values remain, mean 1, cap 0.95), first offer, jitter
draw 1/2, the granular rounding produces 0, the fallback replaces it by 1,
and the returned offer 1 exceeds 0.95 times the mean. -/
theorem C2_counterexample :
    (calculateOffer ⟨[], 0, 0⟩ [JSNum.num 1] 1 (1/2)).2 = 1 ∧
    calculateExpectedValue (validOf [JSNum.num 1]) = 1 ∧
    ¬ (((1 : ℤ) : ℚ) ≤ 0.95 * 1) := by
  have hv : validOf [JSNum.num 1] = [1] := by decide
  refine ⟨?_, by rw [hv]; norm_num [calculateExpectedValue], by norm_num⟩
  have hev : calculateExpectedValue [1] = 1 := by norm_num [calculateExpectedValue]
  have hrm : getRoundMultiplier 1 1 = 19/20 := by norm_num [getRoundMultiplier]
  have hpm : getPsychologyMultiplier [] [1] = 23/20 := by
    norm_num [getPsychologyMultiplier, calculateExpectedValue]
  have hrk : getRiskMultiplier [1] = 1 := by
    norm_num [getRiskMultiplier, calculateExpectedValue]
  have hraw : rawOffer [] [1] 1 = 437/400 := by
    rw [rawOffer]; norm_num [hev, hrm, hpm, hrk]
  have hfl : flooredOffer [] [1] 1 = 437/400 := by
    rw [flooredOffer]; norm_num [hraw, hev]
  have hjt : jitteredOffer [] [1] 1 (1/2) = 437/400 := by
    rw [jitteredOffer, hfl]; norm_num
  have hgr : grainedOffer [] [1] 1 (1/2) = 0 := by
    rw [grainedOffer, hjt, roundOffer]; norm_num [jsRound]
  have hlf : liftedOffer [] [1] 1 (1/2) = 0 := by
    rw [liftedOffer]; norm_num [hgr]
  have hmx : maxOfferOf [1] 1 = 19/20 := by
    rw [maxOfferOf, hev]; norm_num
  have hcp : cappedOffer [] [1] 1 (1/2) 1 = 0 := by
    rw [cappedOffer, hlf, hmx]; norm_num
  have hsf : safeOffer [] [1] 1 (1/2) 1 = 1 := by
    rw [safeOffer, hcp]
    norm_num [listMinimum]
  rw [calculateOffer_eq _ _ _ _ (by decide) (by decide), hv]
  show jsRound (safeOffer [] [1] 1 (1/2) 1) = 1
  rw [hsf, jsRound]; norm_num

/-- Claim C2 amended: the bounds hold of the intermediate offer at the stage
where the code enforces them, not of the final returned integer.  For a
nonempty all-positive input: the capped offer (after Banker.js line 86) is
at most the cap (0.95 times the mean when at most 3 raw values remain, else
0.85 times the mean); the floored offer (after lines 53-56) is at least
0.85 times the mean when at most 3 valid values remain; and the final
returned offer can exceed the cap only through the degenerate fallback and
the final Math.round, staying below max(cap, 1) + 1/2. -/
theorem C2_offer_bounds_amended (bk : Banker) (vs : List ℚ) (round : ℕ) (rand : ℚ)
    (hne : vs ≠ []) (hpos : ∀ v ∈ vs, 0 < v) :
    cappedOffer bk.offers vs round rand vs.length ≤ maxOfferOf vs vs.length ∧
    (vs.length ≤ 3 →
      calculateExpectedValue vs * 0.85 ≤ flooredOffer bk.offers vs round) ∧
    (((calculateOffer bk (vs.map JSNum.num) round rand).2 : ℤ) : ℚ)
      ≤ max (maxOfferOf vs vs.length) 1 + 1/2 := by
  refine ⟨min_le_right _ _, ?_, ?_⟩
  · intro h3
    rw [flooredOffer, if_pos h3]
    exact le_max_right _ _
  · have hmapne : vs.map JSNum.num ≠ [] := by
      simpa using hne
    have hvalid : validOf (vs.map JSNum.num) = vs := validOf_map_num vs hpos
    have hvne : validOf (vs.map JSNum.num) ≠ [] := by rw [hvalid]; exact hne
    rw [calculateOffer_eq bk (vs.map JSNum.num) round rand hmapne hvne]
    rw [hvalid, List.length_map]
    have hmean := mean_pos vs hne hpos
    have hminmean := listMinimum_le_mean vs hne
    have hfall : max 1 (listMinimum vs * 0.1) ≤ max (maxOfferOf vs vs.length) 1 := by
      apply max_le (le_max_right _ _)
      have hmx : listMinimum vs * 0.1 ≤ maxOfferOf vs vs.length := by
        rw [maxOfferOf]
        split_ifs
        · nlinarith
        · nlinarith
      exact le_trans hmx (le_max_left _ _)
    have hsafe : safeOffer bk.offers vs round rand vs.length
        ≤ max (maxOfferOf vs vs.length) 1 := by
      rw [safeOffer]
      split_ifs with h
      · exact hfall
      · exact le_trans (min_le_right _ _) (le_max_left _ _)
    have hfloor := Int.floor_le (safeOffer bk.offers vs round rand vs.length + 1/2)
    rw [jsRound]
    linarith

/-- Witness for the amended claim C2 at a concrete input. -/
theorem C2_offer_bounds_amended_witness :
    cappedOffer [] [100000, 200000] 1 (1/2) 2 ≤ maxOfferOf [100000, 200000] 2 ∧
    (([100000, 200000] : List ℚ).length ≤ 3 →
      calculateExpectedValue [100000, 200000] * 0.85 ≤ flooredOffer [] [100000, 200000] 1) ∧
    (((calculateOffer ⟨[], 0, 0⟩ ([100000, 200000].map JSNum.num) 1 (1/2)).2 : ℤ) : ℚ)
      ≤ max (maxOfferOf [100000, 200000] 2) 1 + 1/2 :=
  C2_offer_bounds_amended ⟨[], 0, 0⟩ [100000, 200000] 1 (1/2) (by decide)
    (by
      intro v hv
      simp only [List.mem_cons, List.not_mem_nil, or_false] at hv
      rcases hv with h | h <;> subst h <;> norm_num)

/-- Claim C9 confirmed: an input that is empty or has no valid (positive
numeric) value makes calculateOffer return a fixed fallback offer (0 for
the empty list at Banker.js line 22, 1000 otherwise at line 32) without
touching the banker state — it never raises. -/
theorem C9_degrade_not_crash (bk : Banker) (remaining : List JSNum) (round : ℕ)
    (rand : ℚ) (h : validOf remaining = []) :
    calculateOffer bk remaining round rand = (bk, if remaining.isEmpty then 0 else 1000) := by
  rw [calculateOffer]
  by_cases he : remaining.isEmpty <;> simp [he, h]

/-- Witness for claim C9 at a concrete input: a NaN, a negative number and a
non-numeric value yield the fallback 1000. -/
theorem C9_degrade_not_crash_witness :
    calculateOffer ⟨[], 0, 0⟩ [JSNum.nan, JSNum.num (-5), JSNum.notNum] 1 0 =
      (⟨[], 0, 0⟩, 1000) :=
  C9_degrade_not_crash ⟨[], 0, 0⟩ [JSNum.nan, JSNum.num (-5), JSNum.notNum] 1 0 (by decide)

/-- One briefcase entry of Board.briefcases (Board.js lines 32-42). -/
structure Briefcase where
  number : ℕ
  isSelected : Bool
  isEliminated : Bool
  value : ℚ
deriving DecidableEq, Repr

/-- JS Set.prototype.add on an insertion-ordered list model of the
eliminatedCases set. -/
def setAdd (l : List ℕ) (n : ℕ) : List ℕ := if n ∈ l then l else l ++ [n]

/-- Board state (Board.js lines 4-17). -/
structure Board where
  briefcases : List Briefcase
  selectedCase : Option ℕ
  eliminatedCases : List ℕ
  caseValues : List (ℕ × ℚ)
deriving DecidableEq, Repr

/-- Mutation of the first list element satisfying p, modelling a JS
Array.prototype.find followed by field assignments on the found object
(no element found means no change). -/
def updateFirst {α : Type} (p : α → Bool) (f : α → α) : List α → List α
  | [] => []
  | c :: cs => if p c then f c :: cs else c :: updateFirst p f cs

/-- Board.getBriefcase (Board.js lines 209-211). -/
def Board.getBriefcase (b : Board) (n : ℕ) : Option Briefcase :=
  b.briefcases.find? (fun c => c.number == n)

/-- Board.selectBriefcase (Board.js lines 167-181): returns whether the
selection succeeded.  The DOM element for a case number exists exactly when
the briefcase exists (renderBoard renders one element per briefcase), so
the two null checks of line 171 coincide in the model. -/
def Board.selectBriefcase (b : Board) (n : ℕ) : Board × Bool :=
  match b.getBriefcase n with
  | none => (b, false)
  | some _ =>
    ({ b with
        briefcases := updateFirst (fun c => c.number == n)
          (fun c => { c with isSelected := true }) b.briefcases,
        selectedCase := some n }, true)

/-- Board.eliminateBriefcase (Board.js lines 188-202): returns the value of
the eliminated case, or none when the case is unknown or already
eliminated. -/
def Board.eliminateBriefcase (b : Board) (n : ℕ) : Board × Option ℚ :=
  match b.getBriefcase n with
  | none => (b, none)
  | some c =>
    if c.isEliminated then (b, none)
    else
      ({ b with
          briefcases := updateFirst (fun x => x.number == n)
            (fun x => { x with isEliminated := true }) b.briefcases,
          eliminatedCases := setAdd b.eliminatedCases n }, some c.value)

/-- Board.getRemainingValues (Board.js lines 217-230): values of all
non-eliminated briefcases, the held one included. -/
def Board.getRemainingValues (b : Board) : List ℚ :=
  (b.briefcases.filter (fun c => !c.isEliminated)).map (fun c => c.value)

/-- Board.getRemainingCasesCount (Board.js lines 269-271): count of all
non-eliminated briefcases, the held one included. -/
def Board.getRemainingCasesCount (b : Board) : ℕ :=
  (b.briefcases.filter (fun c => !c.isEliminated)).length

/-- Board.getAvailableCases (Board.js lines 246-250): numbers of the
briefcases that are neither selected nor eliminated. -/
def Board.getAvailableCases (b : Board) : List ℕ :=
  (b.briefcases.filter (fun c => !c.isSelected && !c.isEliminated)).map (fun c => c.number)

/-- Board.switchPlayerCase (Board.js lines 425-447): deselect the first
selected briefcase (if any), then select the first briefcase with the new
number (if any).  The selectedCase field is NOT updated by the source. -/
def Board.switchPlayerCase (b : Board) (newId : ℕ) : Board :=
  { b with
      briefcases :=
        updateFirst (fun c => c.number == newId) (fun c => { c with isSelected := true })
          (updateFirst (fun c => c.isSelected) (fun c => { c with isSelected := false })
            b.briefcases) }

/-- The fixed denomination table (Board.js lines 10-14). -/
def valuesList : List ℚ :=
  [0.01, 1, 5, 10, 25, 50, 75, 100, 200, 300, 400, 500, 750, 1000,
   5000, 10000, 25000, 50000, 75000, 100000, 200000,
   300000, 400000, 500000, 750000, 1000000]

/-- A concrete board state for counterexamples and witnesses: 26 briefcases
numbered 1 to 26 carrying the denomination table in order, with a given
selection and elimination pattern. -/
def demoBoard (sel : Option ℕ) (elim : List ℕ) : Board :=
  let cases := (List.range 26).map (fun i =>
    { number := i + 1, isSelected := decide (some (i + 1) = sel),
      isEliminated := decide ((i + 1) ∈ elim),
      value := valuesList.getD i 1 : Briefcase })
  { briefcases := cases, selectedCase := sel, eliminatedCases := elim,
    caseValues := cases.map (fun c => (c.number, c.value)) }

/-- find? after updateFirst with a predicate the update preserves: the
first match is the updated element. -/
lemma find?_updateFirst_same {α : Type} (p : α → Bool) (f : α → α)
    (hp : ∀ x, p (f x) = p x) (l : List α) :
    (updateFirst p f l).find? p = (l.find? p).map f := by
  induction l with
  | nil => rfl
  | cons a t ih =>
    by_cases ha : p a
    · rw [updateFirst, if_pos ha, List.find?_cons_of_pos _ (by rw [hp]; exact ha),
        List.find?_cons_of_pos _ ha]
      rfl
    · rw [updateFirst, if_neg ha, List.find?_cons_of_neg _ ha,
        List.find?_cons_of_neg _ (by simpa using ha), ih]

/-- Claim C5: the claim that eliminate signals an error when the target is
HELD is false on the code: Board.eliminateBriefcase (Board.js line 192)
only checks existence and isEliminated, not isSelected.  On a fresh board
with case 2 held, eliminating case 2 succeeds, returns its value 1 and
marks it eliminated. -/
theorem C5_counterexample :
    ((demoBoard (some 2) []).getBriefcase 2).map (fun c => c.isSelected) = some true ∧
    ((demoBoard (some 2) []).getBriefcase 2).map (fun c => c.isEliminated) = some false ∧
    ((demoBoard (some 2) []).eliminateBriefcase 2).2 = some 1 ∧
    (((demoBoard (some 2) []).eliminateBriefcase 2).1.getBriefcase 2).map
      (fun c => c.isEliminated) = some true := by
  decide

/-- Claim C5 amended: eliminate marks any existing non-eliminated container
(the Held one included) Eliminated and returns its value; it signals an
invalid elimination (none, board unchanged) exactly when the target is
unknown or already Eliminated — the Held case is NOT guarded. -/
theorem C5_eliminate_guard_amended (b : Board) (n : ℕ) :
    (b.getBriefcase n = none → b.eliminateBriefcase n = (b, none)) ∧
    (∀ c, b.getBriefcase n = some c → c.isEliminated = true →
      b.eliminateBriefcase n = (b, none)) ∧
    (∀ c, b.getBriefcase n = some c → c.isEliminated = false →
      (b.eliminateBriefcase n).2 = some c.value ∧
      (b.eliminateBriefcase n).1.getBriefcase n = some { c with isEliminated := true } ∧
      (b.eliminateBriefcase n).1.eliminatedCases = setAdd b.eliminatedCases n) := by
  refine ⟨?_, ?_, ?_⟩
  · intro h
    rw [Board.eliminateBriefcase, h]
  · intro c hc he
    rw [Board.eliminateBriefcase, hc]
    simp [he]
  · intro c hc he
    have hval : b.eliminateBriefcase n =
        ({ b with
            briefcases := updateFirst (fun x => x.number == n)
              (fun x => { x with isEliminated := true }) b.briefcases,
            eliminatedCases := setAdd b.eliminatedCases n }, some c.value) := by
      rw [Board.eliminateBriefcase, hc]
      simp [he]
    rw [hval]
    refine ⟨rfl, ?_, rfl⟩
    show Board.getBriefcase _ n = _
    rw [Board.getBriefcase]
    show (updateFirst (fun x => x.number == n) _ b.briefcases).find? _ = _
    rw [find?_updateFirst_same (fun x => x.number == n)
      (fun x => { x with isEliminated := true }) (fun x => rfl) b.briefcases]
    rw [show b.briefcases.find? (fun c => c.number == n) = some c from hc]
    rfl

/-- Witness for the amended claim C5: on a fresh board with case 2 held,
eliminating case 3 (in play, value 5) returns its value. -/
theorem C5_eliminate_guard_amended_witness :
    ((demoBoard (some 2) []).eliminateBriefcase 3).2 = some (5 : ℚ) :=
  (((C5_eliminate_guard_amended (demoBoard (some 2) []) 3).2.2
    ⟨3, false, false, 5⟩ (by decide) (by decide)).1)

/-- Claim C7: the claim that selection is a no-op on an already-Eliminated
container is false on the code: Board.selectBriefcase (Board.js line 171)
only checks existence.  On a board where case 2 is eliminated, selecting
case 2 succeeds and marks it selected.  (The claimed preconditions — no
case currently Held, target InPlay — are likewise not checked: the
eliminated-target filter lives in the click handler, not in the Board.) -/
theorem C7_counterexample :
    ((demoBoard none [2]).getBriefcase 2).map (fun c => c.isEliminated) = some true ∧
    ((demoBoard none [2]).selectBriefcase 2).2 = true ∧
    (((demoBoard none [2]).selectBriefcase 2).1.getBriefcase 2).map
      (fun c => c.isSelected) = some true := by
  decide

/-- Claim C7 amended: selection succeeds for every existing container
regardless of its Held or Eliminated status, marking it selected and
recording it as the selected case; it is a no-op returning false exactly
when the container does not exist. -/
theorem C7_select_guard_amended (b : Board) (n : ℕ) :
    (b.getBriefcase n = none → b.selectBriefcase n = (b, false)) ∧
    (∀ c, b.getBriefcase n = some c →
      (b.selectBriefcase n).2 = true ∧
      (b.selectBriefcase n).1.getBriefcase n = some { c with isSelected := true } ∧
      (b.selectBriefcase n).1.selectedCase = some n) := by
  constructor
  · intro h
    rw [Board.selectBriefcase, h]
  · intro c hc
    have hval : b.selectBriefcase n =
        ({ b with
            briefcases := updateFirst (fun x => x.number == n)
              (fun x => { x with isSelected := true }) b.briefcases,
            selectedCase := some n }, true) := by
      rw [Board.selectBriefcase, hc]
    rw [hval]
    refine ⟨rfl, ?_, rfl⟩
    show Board.getBriefcase _ n = _
    rw [Board.getBriefcase]
    show (updateFirst (fun x => x.number == n) _ b.briefcases).find? _ = _
    rw [find?_updateFirst_same (fun x => x.number == n)
      (fun x => { x with isSelected := true }) (fun x => rfl) b.briefcases]
    rw [show b.briefcases.find? (fun c => c.number == n) = some c from hc]
    rfl

/-- Witness for the amended claim C7: selecting case 4 on a fresh board
succeeds. -/
theorem C7_select_guard_amended_witness :
    ((demoBoard none []).selectBriefcase 4).2 = true :=
  ((C7_select_guard_amended (demoBoard none []) 4).2
    ⟨4, false, false, 10⟩ (by decide)).1

/-- Swap of two list entries, modelling the destructuring assignment
of Board.js line 60; indices are in range in every use of the shuffle. -/
def listSwap (l : List ℚ) (i j : ℕ) : List ℚ :=
  match l.get? i, l.get? j with
  | some vi, some vj => (l.set i vj).set j vi
  | _, _ => l

/-- The Fisher-Yates loop of Board.js lines 58-61, counting the index down
to 1; the choice function js supplies the draw
Math.floor(Math.random() * (i + 1)) for each index i. -/
def fyLoop (js : ℕ → ℕ) : ℕ → List ℚ → List ℚ
  | 0, l => l
  | i + 1, l => fyLoop js i (listSwap l (i + 1) (js (i + 1)))

/-- Board.shuffleValues (Board.js lines 47-80): the shuffled copy of the
denomination table.  The length-mismatch throw of lines 49-52 cannot fire
(both lists have 26 entries). -/
def shuffledValues (js : ℕ → ℕ) : List ℚ := fyLoop js (valuesList.length - 1) valuesList

/-- Board.setupBriefcases (Board.js lines 32-42). -/
def setupBriefcases : List Briefcase :=
  (List.range 26).map (fun i =>
    { number := i + 1, isSelected := false, isEliminated := false, value := 0 })

/-- The forEach of Board.js lines 64-73: the briefcase at each index takes
the shuffled value at that index, with the fallback value 1 when that
index is past the end of the value list (the undefined check of line 66). -/
def assignValues : List Briefcase → List ℚ → List Briefcase
  | [], _ => []
  | c :: cs, vs =>
    match vs with
    | [] => { c with value := 1 } :: assignValues cs []
    | v :: rest => { c with value := v } :: assignValues cs rest

/-- The board built from a given shuffled value list: setupBriefcases with
values assigned by index, the caseValues map filled from the same array
(Board.js lines 63-73). -/
def boardFromValues (vs : List ℚ) : Board :=
  { briefcases := assignValues setupBriefcases vs,
    selectedCase := none, eliminatedCases := [],
    caseValues := (assignValues setupBriefcases vs).map (fun c => (c.number, c.value)) }

/-- A fresh board as produced by Board.init (Board.js lines 22-27):
setupBriefcases then shuffleValues with the given random choices. -/
def initialBoard (js : ℕ → ℕ) : Board := boardFromValues (shuffledValues js)

/-- A board mutation available during a session: an elimination or a
switch of the held case. -/
inductive GameOp where
  | eliminateCase (n : ℕ)
  | switchCase (n : ℕ)

def applyOp (b : Board) : GameOp → Board
  | GameOp.eliminateCase n => (b.eliminateBriefcase n).1
  | GameOp.switchCase n => b.switchPlayerCase n

def applyOps (b : Board) (ops : List GameOp) : Board := ops.foldl applyOp b

lemma cons_set_perm {α : Type} (l : List α) (b : α) (n : ℕ) (h : n < l.length) :
    (l.get ⟨n, h⟩ :: l.set n b).Perm (b :: l) := by
  conv_lhs => rw [List.set_eq_take_cons_drop b h]
  conv_rhs => rw [← List.take_append_drop n l, List.drop_eq_get_cons h]
  refine List.Perm.trans (List.Perm.cons _ List.perm_middle) ?_
  refine List.Perm.trans (List.Perm.swap b (l.get ⟨n, h⟩) _) ?_
  exact List.Perm.cons b List.perm_middle.symm

lemma listSwap_perm (l : List ℚ) (i j : ℕ) : (listSwap l i j).Perm l := by
  rw [listSwap]
  cases hi : l.get? i with
  | none => exact List.Perm.refl l
  | some vi =>
    cases hj : l.get? j with
    | none => exact List.Perm.refl l
    | some vj =>
      obtain ⟨hil, hiv⟩ := List.get?_eq_some.1 hi
      obtain ⟨hjl, hjv⟩ := List.get?_eq_some.1 hj
      have hjl2 : j < (l.set i vj).length := by simpa using hjl
      have h2 := cons_set_perm (l.set i vj) vi j hjl2
      have hgj : (l.set i vj).get ⟨j, hjl2⟩ = vj := by
        by_cases hij : i = j
        · subst hij
          simp [List.get_set]
        · rw [List.get_set_of_ne hij]
          exact hjv
      rw [hgj] at h2
      have h1 := cons_set_perm l vj i hil
      rw [hiv] at h1
      have h3 : (vj :: (l.set i vj).set j vi).Perm (vj :: l) :=
        List.Perm.trans h2 h1
      exact (List.perm_cons vj).1 h3

lemma fyLoop_perm (js : ℕ → ℕ) : ∀ (i : ℕ) (l : List ℚ), (fyLoop js i l).Perm l := by
  intro i
  induction i with
  | zero => intro l; exact List.Perm.refl l
  | succ i ih =>
    intro l
    exact List.Perm.trans (ih (listSwap l (i + 1) (js (i + 1))))
      (listSwap_perm l (i + 1) (js (i + 1)))

lemma shuffledValues_perm (js : ℕ → ℕ) : (shuffledValues js).Perm valuesList :=
  fyLoop_perm js (valuesList.length - 1) valuesList

lemma assignValues_map_value :
    ∀ (cs : List Briefcase) (vs : List ℚ), vs.length = cs.length →
      (assignValues cs vs).map (fun c => c.value) = vs := by
  intro cs
  induction cs with
  | nil =>
    intro vs h
    cases vs with
    | nil => rfl
    | cons v vs => cases h
  | cons c cs ih =>
    intro vs h
    cases vs with
    | nil => cases h
    | cons v vs =>
      simp only [assignValues, List.map_cons]
      rw [ih vs (by simpa using h)]

lemma updateFirst_map {α β : Type} (p : α → Bool) (f : α → α) (g : α → β)
    (hf : ∀ x, g (f x) = g x) :
    ∀ l : List α, (updateFirst p f l).map g = l.map g := by
  intro l
  induction l with
  | nil => rfl
  | cons a t ih =>
    rw [updateFirst]
    split_ifs
    · simp [hf]
    · simp only [List.map_cons, ih]

lemma applyOp_map_value (b : Board) (op : GameOp) :
    (applyOp b op).briefcases.map (fun c => c.value) =
      b.briefcases.map (fun c => c.value) := by
  cases op with
  | eliminateCase n =>
    show ((b.eliminateBriefcase n).1.briefcases.map (fun c => c.value)) = _
    rw [Board.eliminateBriefcase]
    cases hb : b.getBriefcase n with
    | none => rfl
    | some c =>
      by_cases he : c.isEliminated = true
      · simp [he]
      · simp only [he, Bool.false_eq_true, if_false]
        exact updateFirst_map (fun x => x.number == n)
          (fun x => { x with isEliminated := true }) (fun c => c.value)
          (fun x => rfl) b.briefcases
  | switchCase n =>
    show ((b.switchPlayerCase n).briefcases.map (fun c => c.value)) = _
    have hb : (b.switchPlayerCase n).briefcases =
        updateFirst (fun c => c.number == n) (fun c => { c with isSelected := true })
          (updateFirst (fun c => c.isSelected) (fun c => { c with isSelected := false })
            b.briefcases) := rfl
    rw [hb]
    have h1 := updateFirst_map (fun (c : Briefcase) => c.isSelected)
      (fun c => { c with isSelected := false }) (fun c => c.value) (fun x => rfl) b.briefcases
    have h2 := updateFirst_map (fun (c : Briefcase) => c.number == n)
      (fun c => { c with isSelected := true }) (fun c => c.value) (fun x => rfl)
      (updateFirst (fun c => c.isSelected) (fun c => { c with isSelected := false })
        b.briefcases)
    rw [h2, h1]

lemma applyOps_map_value (ops : List GameOp) :
    ∀ b : Board, (applyOps b ops).briefcases.map (fun c => c.value) =
      b.briefcases.map (fun c => c.value) := by
  induction ops with
  | nil => intro b; rfl
  | cons op ops ih =>
    intro b
    show ((applyOps (applyOp b op) ops).briefcases.map (fun c => c.value)) = _
    rw [ih (applyOp b op), applyOp_map_value]

/-- Claim C6 confirmed: for every random shuffle and every sequence of
eliminations and switches applied to a fresh board, the multiset of the 26
container values is exactly the denomination table: the Fisher-Yates
shuffle permutes the table, value assignment copies it onto the
briefcases, and neither elimination nor switching touches a value field. -/
theorem C6_value_conservation (js : ℕ → ℕ) (ops : List GameOp) :
    ((applyOps (initialBoard js) ops).briefcases.map (fun c => c.value)).Perm valuesList := by
  rw [applyOps_map_value, initialBoard]
  generalize hvs : shuffledValues js = vs
  have hperm : vs.Perm valuesList := hvs ▸ shuffledValues_perm js
  have hlen : vs.length = setupBriefcases.length := by
    rw [List.Perm.length_eq hperm]
    rfl
  have hb : (boardFromValues vs).briefcases.map (fun c => c.value) = vs :=
    assignValues_map_value setupBriefcases vs hlen
  rw [hb]
  exact hperm

lemma updateFirst_deselect_all (l : List Briefcase)
    (h : (l.filter (fun c => c.isSelected)).length = 1) :
    ∀ c ∈ updateFirst (fun c => c.isSelected)
      (fun c => { c with isSelected := false }) l, c.isSelected = false := by
  induction l with
  | nil => intro c hc; cases hc
  | cons a t ih =>
    by_cases ha : a.isSelected
    · rw [List.filter_cons_of_pos (by simpa using ha)] at h
      have ht : (t.filter (fun c => c.isSelected)).length = 0 := by
        simpa using h
      have htnil : t.filter (fun c => c.isSelected) = [] := List.length_eq_zero.1 ht
      have htall : ∀ c ∈ t, c.isSelected = false := by
        intro c hc
        have := List.filter_eq_nil.1 htnil c hc
        simpa using this
      intro c hc
      rw [updateFirst, if_pos (by simpa using ha)] at hc
      rcases List.mem_cons.1 hc with hc | hc
      · subst hc; rfl
      · exact htall c hc
    · rw [List.filter_cons_of_neg (by simpa using ha)] at h
      intro c hc
      rw [updateFirst, if_neg (by simpa using ha)] at hc
      rcases List.mem_cons.1 hc with hc | hc
      · subst hc; simpa using ha
      · exact ih h c hc

lemma updateFirst_select_flags (l : List Briefcase) (newId : ℕ)
    (hall : ∀ c ∈ l, c.isSelected = false)
    (hnd : (l.map (fun c => c.number)).Nodup)
    (hmem : newId ∈ l.map (fun c => c.number)) :
    ∀ c ∈ updateFirst (fun c => c.number == newId)
      (fun c => { c with isSelected := true }) l,
      c.isSelected = (c.number == newId) := by
  induction l with
  | nil => intro c hc; cases hc
  | cons a t ih =>
    rw [List.map_cons, List.nodup_cons] at hnd
    by_cases ha : a.number = newId
    · intro c hc
      rw [updateFirst, if_pos (by simpa using ha)] at hc
      rcases List.mem_cons.1 hc with hc | hc
      · subst hc
        simpa using ha
      · have hcf := hall c (List.mem_cons_of_mem a hc)
        rw [hcf]
        have hne : c.number ≠ newId := by
          intro he
          apply hnd.1
          have hcm : c.number ∈ t.map (fun c => c.number) := List.mem_map.2 ⟨c, hc, rfl⟩
          rw [ha, ← he]
          exact hcm
        simp [hne]
    · intro c hc
      rw [updateFirst, if_neg (by simpa using ha)] at hc
      rcases List.mem_cons.1 hc with hc | hc
      · subst hc
        rw [hall c (List.mem_cons_self c t)]
        simp [ha]
      · have hmem2 : newId ∈ t.map (fun c => c.number) := by
          rcases List.mem_cons.1 (by simpa using hmem : newId ∈ a.number :: t.map (fun c => c.number)) with h | h
          · exact absurd h.symm ha
          · exact h
        exact ih (fun c hc => hall c (List.mem_cons_of_mem a hc)) hnd.2 hmem2 c hc

lemma switchPlayerCase_triple (b : Board) (newId : ℕ) :
    (b.switchPlayerCase newId).briefcases.map
        (fun c => (c.number, c.value, c.isEliminated)) =
      b.briefcases.map (fun c => (c.number, c.value, c.isEliminated)) := by
  have hb : (b.switchPlayerCase newId).briefcases =
      updateFirst (fun c => c.number == newId) (fun c => { c with isSelected := true })
        (updateFirst (fun c => c.isSelected) (fun c => { c with isSelected := false })
          b.briefcases) := rfl
  rw [hb]
  have h1 := updateFirst_map (fun (c : Briefcase) => c.isSelected)
    (fun c => { c with isSelected := false })
    (fun c => (c.number, c.value, c.isEliminated)) (fun x => rfl) b.briefcases
  have h2 := updateFirst_map (fun (c : Briefcase) => c.number == newId)
    (fun c => { c with isSelected := true })
    (fun c => (c.number, c.value, c.isEliminated)) (fun x => rfl)
    (updateFirst (fun c => c.isSelected) (fun c => { c with isSelected := false })
      b.briefcases)
  rw [h2, h1]

/-- Claim C10 confirmed: on a board with pairwise distinct case numbers,
exactly one selected case and an existing target number, switchPlayerCase
changes only selection flags: every case keeps its number, value and
eliminated flag, the eliminated-case set and the case-value map are
untouched, afterwards a case is flagged selected exactly when it carries
the new number, and exactly one case is selected. -/
theorem C10_switch_frame (b : Board) (newId : ℕ)
    (hnd : (b.briefcases.map (fun c => c.number)).Nodup)
    (hone : (b.briefcases.filter (fun c => c.isSelected)).length = 1)
    (hmem : newId ∈ b.briefcases.map (fun c => c.number)) :
    (b.switchPlayerCase newId).briefcases.map
        (fun c => (c.number, c.value, c.isEliminated)) =
      b.briefcases.map (fun c => (c.number, c.value, c.isEliminated)) ∧
    (∀ c ∈ (b.switchPlayerCase newId).briefcases,
      c.isSelected = (c.number == newId)) ∧
    (b.switchPlayerCase newId).eliminatedCases = b.eliminatedCases ∧
    (b.switchPlayerCase newId).caseValues = b.caseValues ∧
    ((b.switchPlayerCase newId).briefcases.filter
      (fun c => c.isSelected)).length = 1 := by
  have hflags : ∀ c ∈ (b.switchPlayerCase newId).briefcases,
      c.isSelected = (c.number == newId) := by
    have hall := updateFirst_deselect_all b.briefcases hone
    have hnum : (updateFirst (fun c => c.isSelected)
          (fun c => { c with isSelected := false }) b.briefcases).map
        (fun c => c.number) = b.briefcases.map (fun c => c.number) :=
      updateFirst_map (fun (c : Briefcase) => c.isSelected)
        (fun c => { c with isSelected := false }) (fun c => c.number)
        (fun x => rfl) b.briefcases
    have := updateFirst_select_flags
      (updateFirst (fun c => c.isSelected) (fun c => { c with isSelected := false })
        b.briefcases) newId hall (by rw [hnum]; exact hnd) (by rw [hnum]; exact hmem)
    exact this
  refine ⟨switchPlayerCase_triple b newId, hflags, rfl, rfl, ?_⟩
  have hnum2 : (b.switchPlayerCase newId).briefcases.map (fun c => c.number) =
      b.briefcases.map (fun c => c.number) := by
    have h := congrArg (List.map (fun p => p.1)) (switchPlayerCase_triple b newId)
    simpa [Function.comp] using h
  rw [List.filter_congr hflags]
  have hcount : ((b.switchPlayerCase newId).briefcases.filter
      (fun c => c.number == newId)).length
      = ((b.switchPlayerCase newId).briefcases.map (fun c => c.number)).count newId := by
    rw [List.count, List.countP_map, ← List.countP_eq_length_filter]
    rfl
  rw [hcount, hnum2]
  exact List.count_eq_one_of_mem hnd hmem

/-- Witness for claim C10: on a fresh board with case 5 held, switching to
case 7 leaves exactly one case selected. -/
theorem C10_switch_frame_witness :
    (((demoBoard (some 5) []).switchPlayerCase 7).briefcases.filter
      (fun c => c.isSelected)).length = 1 :=
  (C10_switch_frame (demoBoard (some 5) []) 7 (by decide) (by decide) (by decide)).2.2.2.2

/-- The gameState strings of the Game class (Animator.js line 587). -/
inductive GState where
  | waiting
  | selecting
  | playing
  | bankerOffer
  | switchOffer
  | gameOver
deriving DecidableEq, Repr

/-- The Game-class state touched by the round flow (Animator.js
lines 586-590). -/
structure Game where
  board : Board
  banker : Banker
  round : ℕ
  casesToEliminate : ℕ
  eliminatedThisRound : ℕ
  gameState : GState
deriving Repr

/-- The offer-engine input computed at Animator.js line 770: the board's
remaining values, which INCLUDE the held case (Board.getRemainingValues
filters on isEliminated only). -/
def endRoundBankerInput (g : Game) : List ℚ := g.board.getRemainingValues

/-- Game.endRound (Animator.js lines 757-784): zero the per-round
elimination counter; with at most 2 remaining cases hand over to the
switch flow (offerSwitchOption, presentation-level, modelled as entering
the switchOffer state), otherwise run the banker on the remaining values
(makeOffer delegates the amount to calculateOffer; the flavour message is
presentation metadata and not modelled) and enter the banker_offer
state. -/
def endRound (g : Game) (rand : ℚ) : Game :=
  let g1 : Game := { g with eliminatedThisRound := 0 }
  if g1.board.getRemainingCasesCount ≤ 2 then
    { g1 with gameState := GState.switchOffer }
  else
    let bk := (calculateOffer g1.banker ((endRoundBankerInput g1).map JSNum.num)
      g1.round rand).1
    { g1 with banker := bk, gameState := GState.bankerOffer }

/-- Game.handleDealRejected (Animator.js lines 837-866): advance the round,
return to playing and pick the next elimination quota from the count of
remaining (non-eliminated, held included) cases. -/
def handleDealRejected (g : Game) : Game :=
  let remainingCases := g.board.getRemainingCasesCount
  let quota :=
    if 10 < remainingCases then 5
    else if 6 < remainingCases then 4
    else if 3 < remainingCases then 2
    else 1
  { g with round := g.round + 1, gameState := GState.playing, casesToEliminate := quota }

/-- A game in the playing state over a given board, as after the initial
selection (Animator.js lines 641-644 and 680). -/
def demoGame (b : Board) : Game :=
  { board := b, banker := ⟨[], 0, 0⟩, round := 1, casesToEliminate := 6,
    eliminatedThisRound := 0, gameState := GState.playing }

/-- The value set that claim C3 says is given to the banker: values of the
non-eliminated containers OTHER than the held one. -/
def heldExcludedValues (b : Board) : List ℚ :=
  (b.briefcases.filter (fun c => !c.isEliminated && !c.isSelected)).map (fun c => c.value)

/-- Claim C3: false on the code.  Game.endRound (Animator.js line 770)
feeds Board.getRemainingValues to the banker, and that list includes the
held case.  On a board with case 2 held and five cases eliminated, an
offer is computed (21 cases remain) and the banker input has 21 values
while the held-excluded set of the claim has 20, so they differ. -/
theorem C3_counterexample :
    (endRound (demoGame (demoBoard (some 2) [22, 23, 24, 25, 26])) 0).gameState
      = GState.bankerOffer ∧
    (endRoundBankerInput (demoGame (demoBoard (some 2) [22, 23, 24, 25, 26]))).length = 21 ∧
    (heldExcludedValues (demoBoard (some 2) [22, 23, 24, 25, 26])).length = 20 ∧
    endRoundBankerInput (demoGame (demoBoard (some 2) [22, 23, 24, 25, 26]))
      ≠ heldExcludedValues (demoBoard (some 2) [22, 23, 24, 25, 26]) := by
  refine ⟨by decide, by decide, by decide, ?_⟩
  intro h
  have hlen := congrArg List.length h
  have h21 : (endRoundBankerInput (demoGame (demoBoard (some 2) [22, 23, 24, 25, 26]))).length = 21 := by decide
  have h20 : (heldExcludedValues (demoBoard (some 2) [22, 23, 24, 25, 26])).length = 20 := by decide
  rw [h21, h20] at hlen
  cases hlen

/-- Claim C3 amended: the value set given to the banker at the end of a
round is the values of ALL non-eliminated containers, so it includes the
held container whenever that container is not eliminated. -/
theorem C3_offer_input_amended (g : Game) :
    endRoundBankerInput g =
      (g.board.briefcases.filter (fun c => !c.isEliminated)).map (fun c => c.value) ∧
    ∀ c ∈ g.board.briefcases, c.isSelected = true → c.isEliminated = false →
      c.value ∈ endRoundBankerInput g := by
  constructor
  · rfl
  · intro c hc _ he
    show c.value ∈ (g.board.briefcases.filter (fun x => !x.isEliminated)).map (fun x => x.value)
    exact List.mem_map.2 ⟨c, List.mem_filter.2 ⟨hc, by simp [he]⟩, rfl⟩

/-- Witness for the amended claim C3: the held case 2 (value 1) of a fresh
board appears in the banker input. -/
theorem C3_offer_input_amended_witness :
    (1 : ℚ) ∈ endRoundBankerInput (demoGame (demoBoard (some 2) [])) :=
  (C3_offer_input_amended (demoGame (demoBoard (some 2) []))).2
    ⟨2, true, false, 1⟩ (by decide) rfl rfl

/-- The quota rule exactly as claim C4 words it: thresholds applied to the
count of non-held, non-eliminated containers. -/
def quotaByAvailableCount (n : ℕ) : ℕ :=
  if 10 < n then 5 else if 6 < n then 4 else if 3 < n then 2 else 1

/-- Claim C4: false on the code.  Game.handleDealRejected (Animator.js
line 850) selects the quota from Board.getRemainingCasesCount, which
counts the held case too.  With case 1 held and 15 cases eliminated there
are 10 non-held non-eliminated cases (claim quota 4) but the code counts
11 and picks quota 5. -/
theorem C4_counterexample :
    ((demoBoard (some 1) [12, 13, 14, 15, 16, 17, 18, 19, 20, 21, 22, 23, 24, 25, 26]).getAvailableCases).length = 10 ∧
    (handleDealRejected (demoGame (demoBoard (some 1)
      [12, 13, 14, 15, 16, 17, 18, 19, 20, 21, 22, 23, 24, 25, 26]))).casesToEliminate = 5 ∧
    quotaByAvailableCount 10 = 4 := by
  refine ⟨by decide, by decide, by decide⟩

/-- Claim C4 amended: after a rejected offer the new quota is selected by
the count of remaining NON-ELIMINATED containers, the held one included
(not the non-held count): quota 5 above 10, 4 above 6, 2 above 3, else 1;
eliminatedThisRound, zeroed when the round ended, is still 0, and the
round counter advances. -/
theorem C4_quota_amended (g : Game) (rand : ℚ)
    (h : 2 < g.board.getRemainingCasesCount) :
    (handleDealRejected (endRound g rand)).eliminatedThisRound = 0 ∧
    (handleDealRejected (endRound g rand)).round = g.round + 1 ∧
    (endRound g rand).gameState = GState.bankerOffer ∧
    (handleDealRejected (endRound g rand)).casesToEliminate =
      (if 10 < g.board.getRemainingCasesCount then 5
       else if 6 < g.board.getRemainingCasesCount then 4
       else if 3 < g.board.getRemainingCasesCount then 2 else 1) := by
  have her : endRound g rand =
      { g with
          eliminatedThisRound := 0
          banker := (calculateOffer g.banker
            ((endRoundBankerInput ({ g with eliminatedThisRound := 0 })).map JSNum.num)
            g.round rand).1
          gameState := GState.bankerOffer } := by
    simp only [endRound]
    rw [if_neg (not_le.2 h)]
  rw [her, handleDealRejected]
  exact ⟨rfl, rfl, rfl, rfl⟩

/-- Witness for the amended claim C4 on a fresh 26-case board. -/
theorem C4_quota_amended_witness :
    (handleDealRejected (endRound (demoGame (demoBoard (some 1) [])) 0)).eliminatedThisRound = 0 ∧
    (handleDealRejected (endRound (demoGame (demoBoard (some 1) [])) 0)).round = 2 ∧
    (endRound (demoGame (demoBoard (some 1) [])) 0).gameState = GState.bankerOffer ∧
    (handleDealRejected (endRound (demoGame (demoBoard (some 1) [])) 0)).casesToEliminate = 5 :=
  C4_quota_amended (demoGame (demoBoard (some 1) [])) 0 (by decide)

/-- The round-multiplier step function exactly as the specification words
it: the remaining-count thresholds take precedence, then a round-indexed
ramp for rounds 1 to 6, else 0.70. -/
def specRoundMultiplierTable (round : ℕ) (remainingCount : ℕ) : ℚ :=
  if remainingCount ≤ 2 then 0.95
  else if remainingCount ≤ 3 then 0.90
  else if remainingCount ≤ 5 then 0.85
  else if remainingCount ≤ 10 then 0.80
  else
    match round with
    | 1 => 0.25
    | 2 => 0.35
    | 3 => 0.45
    | 4 => 0.55
    | 5 => 0.65
    | 6 => 0.75
    | _ => 0.70

/-- Claim C8 confirmed: Banker.getRoundMultiplier agrees with the
specification's step function at every round and remaining count. -/
theorem C8_round_multiplier (round remaining : ℕ) :
    getRoundMultiplier round remaining = specRoundMultiplierTable round remaining := by
  rw [getRoundMultiplier, specRoundMultiplierTable.eq_def]
  by_cases h2 : remaining ≤ 2
  · rw [if_pos h2, if_pos h2]
  rw [if_neg h2, if_neg h2]
  by_cases h3 : remaining ≤ 3
  · rw [if_pos h3, if_pos h3]
  rw [if_neg h3, if_neg h3]
  by_cases h5 : remaining ≤ 5
  · rw [if_pos h5, if_pos h5]
  rw [if_neg h5, if_neg h5]
  by_cases h10 : remaining ≤ 10
  · rw [if_pos h10, if_pos h10]
  rw [if_neg h10, if_neg h10]
  rcases round with _ | _ | _ | _ | _ | _ | _ | r <;> rfl
